import Mathlib

/-!
Shallow embedding of the persistence / dispatch core of the
telegram-bot-arenda-ps4-ps5 repository (files `performance_optimizer.py`
and `async_bot_handler.py`), together with theorems settling the frozen
claims C1..C10 about it.

Modelling conventions:
* machine state that the Python code mutates is passed explicitly;
* fallible I/O is modelled by explicit crash / exception points;
* JSON documents are modelled as flat top-level maps `List (String × Nat)`
  (the claims depend only on top-level structure, not on nested values);
* the serialized size `len(json.dumps(data).encode("utf-8"))` is an
  explicit `size : Doc → Nat` parameter where a claim depends on it.
-/

namespace PerformanceOptimizer

/-! ## File layer: `HighPerformanceFileHandler._write_file_async`
(performance_optimizer.py lines 87-118).

The body performs, in order: open/start writing `file_path + ".tmp"`,
finish writing it (with fsync), then — on Windows only, and only when the
target exists — `os.remove(file_path)`, and finally
`os.rename(temp_path, file_path)`.  We model the write as a list of
atomic filesystem operations; a crash after `k` of them leaves the state
produced by the first `k` operations, while a caught exception after `k`
of them additionally runs the `except` handler, which removes the
temporary file and returns `False`. -/

/-- Contents of one on-disk file: missing, half-written, or a complete
serialized document `d`. -/
inductive FileContent (δ : Type) where
  | absent : FileContent δ
  | truncated : FileContent δ
  | doc : δ → FileContent δ
deriving DecidableEq, Repr

/-- The two files `_write_file_async` touches: the target path and its
temporary sibling `file_path + ".tmp"`. -/
structure FsState (δ : Type) where
  target : FileContent δ
  temp : FileContent δ
deriving DecidableEq, Repr

/-- The atomic filesystem operations the body of `_write_file_async`
issues, in program order. -/
inductive FsOp where
  | writeTempStart
  | writeTempFinish
  | removeTarget
  | renameTemp
deriving DecidableEq, Repr

/-- Effect of one filesystem operation when the document being written is
`newDoc`. `renameTemp` installs whatever the temp file holds as the
target. -/
def applyOp (newDoc : δ) : FsOp → FsState δ → FsState δ
  | .writeTempStart, s => { s with temp := .truncated }
  | .writeTempFinish, s => { s with temp := .doc newDoc }
  | .removeTarget, s => { s with target := .absent }
  | .renameTemp, s => { target := s.temp, temp := .absent }

/-- The operation sequence of `_write_file_async`: write the temp file,
then (Windows branch `os.name == 'nt'` only, when the target exists)
remove the target, then rename the temp file onto the target. -/
def writeOps (windows : Bool) (targetExists : Bool) : List FsOp :=
  [.writeTempStart, .writeTempFinish]
    ++ (if windows && targetExists then [.removeTarget] else [])
    ++ [.renameTemp]

/-- Disk state before the save: the target holds the previous complete
document `old` (or nothing), and no temp file exists. -/
def initState (old : Option δ) : FsState δ :=
  { target := match old with | some d => .doc d | none => .absent,
    temp := .absent }

/-- Run a list of filesystem operations. -/
def runOps (newDoc : δ) (ops : List FsOp) (s : FsState δ) : FsState δ :=
  ops.foldl (fun s op => applyOp newDoc op s) s

/-- Target-file content observed after a crash that happens once exactly
`k` of the save's filesystem operations have completed. -/
def targetAfterCrash (windows : Bool) (old : Option δ) (newDoc : δ)
    (k : Nat) : FileContent δ :=
  (runOps newDoc ((writeOps windows old.isSome).take k) (initState old)).target

/-- The `except` handler of `_write_file_async`: remove the temporary file
if it exists (lines 116-117), then return `False`. -/
def cleanupTemp (s : FsState δ) : FsState δ :=
  match s.temp with
  | .absent => s
  | _ => { s with temp := .absent }

/-- `_write_file_async` when an exception is raised after exactly `k` of
its filesystem operations completed: the handler removes the temp file
and the call returns `False`. -/
def write_file_failed (windows : Bool) (old : Option δ) (newDoc : δ)
    (k : Nat) : Bool × FsState δ :=
  (false,
    cleanupTemp
      (runOps newDoc ((writeOps windows old.isSome).take k) (initState old)))

/-- The `except` handler never touches the target file. -/
lemma cleanupTemp_target (s : FsState δ) : (cleanupTemp s).target = s.target := by
  cases h : s.temp <;> simp [cleanupTemp, h]

/-- After the `except` handler runs, no temporary file remains. -/
lemma cleanupTemp_temp (s : FsState δ) : (cleanupTemp s).temp = .absent := by
  cases h : s.temp <;> simp [cleanupTemp, h]

end PerformanceOptimizer

namespace PerformanceOptimizer

/-- C1 counterexample: on the Windows branch (`os.name == 'nt'`), with a
previous complete document `0` on disk, a crash after 3 of the 4
filesystem operations (i.e. after `os.remove(file_path)` but before
`os.rename`) leaves the target file absent, not equal to the previous
complete document — refuting the claim that a crash at any point during
the save leaves the file equal to the previous document. -/
theorem c1_counterexample :
    3 < (writeOps true (some (0 : Nat)).isSome).length ∧
    targetAfterCrash true (some (0 : Nat)) 1 3 = FileContent.absent ∧
    targetAfterCrash true (some (0 : Nat)) 1 3 ≠ FileContent.doc 0 := by
  refine ⟨by decide, rfl, by decide⟩

/-- C1 amended: at every crash point strictly before the save completes,
the target file holds exactly the previous content (previous complete
document, or absent if none existed) — except that on the Windows branch
it may additionally be absent (the remove-then-rename window); it is never
a truncated document, on any platform, at any crash point. -/
theorem c1_atomic_install_amended (windows : Bool) (old : Option Nat)
    (newDoc : Nat) (k : Nat)
    (hk : k < (writeOps windows old.isSome).length) :
    (targetAfterCrash windows old newDoc k = (initState old).target ∨
      (windows = true ∧ targetAfterCrash windows old newDoc k = .absent)) ∧
    (∀ j : Nat, targetAfterCrash windows old newDoc j ≠ .truncated) := by
  constructor
  · rcases windows with _ | _ <;> rcases old with _ | d <;>
      simp [writeOps] at hk <;>
      interval_cases k <;>
      simp [targetAfterCrash, writeOps, runOps, applyOp, initState,
        List.take_succ_cons]
  · intro j
    rcases windows with _ | _ <;> rcases old with _ | d <;>
      rcases j with _ | _ | _ | _ | j <;>
      simp [targetAfterCrash, writeOps, runOps, applyOp, initState,
        List.take_succ_cons]

/-- C1 witness: the amended theorem applied at a concrete input (Unix
branch, no previous file, crash before any operation). -/
theorem c1_witness :
    0 < (writeOps false (none : Option Nat).isSome).length ∧
    ((targetAfterCrash false (none : Option Nat) 7 0 =
        (initState (none : Option Nat)).target ∨
      (false = true ∧
        targetAfterCrash false (none : Option Nat) 7 0 = .absent)) ∧
    (∀ j : Nat, targetAfterCrash false (none : Option Nat) 7 j ≠
        .truncated)) :=
  ⟨by decide, c1_atomic_install_amended false none 7 0 (by decide)⟩

end PerformanceOptimizer

/-! ## Queue layer: `AsyncBotHandler` (async_bot_handler.py).

`__init__` creates `asyncio.Queue(maxsize=1000)` for messages (line 31).
`add_message_to_queue` (lines 146-153) does `await self.message_queue.put(
message_data)` and returns `True`; its `except asyncio.QueueFull` branch
returns `False`.  `asyncio.Queue.put` on a bounded queue never raises
`QueueFull`: when the queue is full it suspends the caller until a slot
frees.  We model `put` with an explicit `none` outcome for "the coroutine
suspends and the call does not return" (there being no consumer). -/

namespace AsyncBotQueue

/-- `asyncio.Queue.put` on a queue bounded by `maxsize`, with no
concurrent consumer: append when a slot is free, otherwise suspend
(`none` = the call does not return). -/
def asyncioQueuePut (maxsize : Nat) (q : List α) (x : α) : Option (List α) :=
  if q.length < maxsize then some (q ++ [x]) else none

/-- `AsyncBotHandler.add_message_to_queue`: awaits `put` on the
capacity-1000 message queue and returns `True`; the `except
asyncio.QueueFull → return False` branch is modelled faithfully as
unreachable, because `put` suspends instead of raising. -/
def add_message_to_queue (q : List α) (x : α) : Option (Bool × List α) :=
  (asyncioQueuePut 1000 q x).map (fun q2 => (true, q2))

/-- Run `n` successive `add_message_to_queue` calls with no consumer,
counting `true` and `false` returns; stop (third component `true`) as
soon as a call suspends without returning. -/
def enqueueTrace : Nat → List Nat → Nat × Nat → (Nat × Nat) × Bool
  | 0, _, c => (c, false)
  | n + 1, q, c =>
    match add_message_to_queue q 0 with
    | some (true, q2) => enqueueTrace n q2 (c.1 + 1, c.2)
    | some (false, _) => enqueueTrace n q (c.1, c.2 + 1)
    | none => (c, true)

lemma enqueueTrace_fills (n : Nat) (q : List Nat) (c : Nat × Nat)
    (h : q.length + n ≤ 1000) :
    enqueueTrace n q c = ((c.1 + n, c.2), false) := by
  induction n generalizing q c with
  | zero => simp [enqueueTrace]
  | succ m ih =>
    have hlt : q.length < 1000 := by omega
    have h2 : (q ++ [0]).length + m ≤ 1000 := by
      simp only [List.length_append, List.length_cons, List.length_nil]
      omega
    simp only [enqueueTrace, add_message_to_queue, asyncioQueuePut, hlt,
      if_true, Option.map_some']
    rw [ih (q ++ [0]) (c.1 + 1, c.2) h2]
    have harith : c.1 + 1 + m = c.1 + (m + 1) := by omega
    rw [harith]

lemma enqueueTrace_blocked (n : Nat) (q : List Nat) (c : Nat × Nat)
    (hq : q.length = 1000) (hn : 0 < n) :
    enqueueTrace n q c = (c, true) := by
  cases n with
  | zero => omega
  | succ m =>
    simp [enqueueTrace, add_message_to_queue, asyncioQueuePut, hq]

/-- Composition: a trace of `a + b` enqueues first runs `a` of them. -/
lemma enqueueTrace_append (a b : Nat) (q : List Nat) (c : Nat × Nat)
    (h : q.length + a ≤ 1000) :
    enqueueTrace (a + b) q c =
      enqueueTrace b (q ++ List.replicate a 0) (c.1 + a, c.2) := by
  induction a generalizing q c with
  | zero => simp
  | succ m ih =>
    have hlt : q.length < 1000 := by omega
    have h2 : (q ++ [0]).length + m ≤ 1000 := by
      simp only [List.length_append, List.length_cons, List.length_nil]
      omega
    have hstep : m + 1 + b = m + b + 1 := by omega
    rw [hstep]
    simp only [enqueueTrace, add_message_to_queue, asyncioQueuePut, hlt,
      if_true, Option.map_some']
    rw [ih (q ++ [0]) (c.1 + 1, c.2) h2]
    have h3 : c.1 + 1 + m = c.1 + (m + 1) := by omega
    have h4 : q ++ [(0 : Nat)] ++ List.replicate m (0 : Nat) =
        q ++ List.replicate (m + 1) (0 : Nat) := by
      rw [List.replicate_succ, List.append_assoc]
      rfl
    rw [h3, h4]

end AsyncBotQueue

namespace AsyncBotQueue

/-- C3: the claim fails on the code because `add_message_to_queue` awaits
the blocking `Queue.put`, which never raises `QueueFull`: running 1200
enqueues against the capacity-1000 message queue with no consumer yields
1000 `true` returns and then the 1001st call suspends forever — zero calls
return `false` (the claim demands 200), and a single enqueue on a full
queue suspends rather than returning `false` immediately. -/
theorem c3_enqueue_blocks :
    enqueueTrace 1200 [] (0, 0) = ((1000, 0), true) ∧
    add_message_to_queue (List.replicate 1000 (0 : Nat)) 0 = none := by
  constructor
  · have h1 : (1200 : Nat) = 1000 + 200 := by norm_num
    rw [h1, enqueueTrace_append 1000 200 [] (0, 0)
      (by simp only [List.length_nil]; omega)]
    rw [enqueueTrace_blocked 200 _ _
      (by simp only [List.nil_append, List.length_replicate]) (by norm_num)]
  · simp only [add_message_to_queue, asyncioQueuePut, List.length_replicate]
    norm_num

end AsyncBotQueue

namespace AsyncBotWorker

/-! ## Worker loops: `AsyncBotHandler._message_worker` (lines 84-102) and
`_file_worker` (lines 118-131).

Each worker loops forever: dequeue an item, run the handler on it inside
`try`, and on success increment the processed counter; `except Exception`
logs, increments `self.stats['errors']`, and falls through to the next
loop iteration.  We model one worker draining a given list of queued
items with a handler that either returns or raises (`Except`). -/

/-- The two counters of `self.stats` a worker touches:
`messages_processed` / `files_processed` (named `processed` here) and
`errors`. -/
structure BotStats where
  processed : Nat
  errors : Nat
deriving DecidableEq, Repr

/-- Whether a handler call returned normally. -/
def handlerOk : Except String Unit → Bool
  | .ok _ => true
  | .error _ => false

/-- One worker loop draining `items`: per item, a normal handler return
bumps `processed`; a raised exception is caught, bumps `errors`, and the
loop continues with the next item. -/
def worker_run (h : α → Except String Unit) (items : List α)
    (s : BotStats) : BotStats :=
  items.foldl
    (fun s x =>
      match h x with
      | .ok _ => { s with processed := s.processed + 1 }
      | .error _ => { s with errors := s.errors + 1 })
    s

lemma countP_not_split (p : α → Bool) (l : List α) :
    l.countP p + l.countP (fun x => !p x) = l.length := by
  induction l with
  | nil => simp
  | cons x xs ih =>
    cases hx : p x <;> simp [List.countP_cons, hx] <;> omega

lemma worker_run_counts (h : α → Except String Unit) (items : List α)
    (s : BotStats) :
    worker_run h items s =
      { processed := s.processed + items.countP (fun x => handlerOk (h x)),
        errors := s.errors + items.countP (fun x => !handlerOk (h x)) } := by
  induction items generalizing s with
  | nil => simp [worker_run, List.countP_nil]
  | cons x xs ih =>
    simp only [worker_run, List.foldl_cons] at ih ⊢
    cases hx : h x <;>
      simp [hx, ih, List.countP_cons, handlerOk, BotStats.mk.injEq] <;>
      omega

end AsyncBotWorker

namespace AsyncBotWorker

/-- C6: if the handler raises on exactly one of the queued items, the
worker loop consumes the whole queue, the error counter rises by exactly
1, and every one of the other items is still processed and counted. -/
theorem c6_worker_isolation (h : α → Except String Unit) (items : List α)
    (s : BotStats)
    (hone : (items.filter (fun x => !handlerOk (h x))).length = 1) :
    (worker_run h items s).errors = s.errors + 1 ∧
    (worker_run h items s).processed = s.processed + (items.length - 1) := by
  rw [worker_run_counts]
  have hcount : items.countP (fun x => !handlerOk (h x)) = 1 := by
    rw [← hone, List.countP_eq_length_filter]
  have hsplit : items.countP (fun x => handlerOk (h x)) +
      items.countP (fun x => !handlerOk (h x)) = items.length :=
    countP_not_split (fun x => handlerOk (h x)) items
  refine ⟨?_, ?_⟩
  · show s.errors + items.countP (fun x => !handlerOk (h x)) = s.errors + 1
    omega
  · show s.processed + items.countP (fun x => handlerOk (h x)) =
      s.processed + (items.length - 1)
    omega

/-- C6 witness: the theorem applied to a 10-item queue whose handler
raises on item 3 only: the other 9 items are processed and the error
counter ends at exactly 1. -/
theorem c6_witness :
    (([1, 2, 3, 4, 5, 6, 7, 8, 9, 10] : List Nat).filter
        (fun x => !handlerOk
          (if x = 3 then Except.error "boom" else Except.ok ()))).length = 1 ∧
    (worker_run (fun x => if x = 3 then Except.error "boom" else Except.ok ())
        [1, 2, 3, 4, 5, 6, 7, 8, 9, 10] ⟨0, 0⟩).errors = 0 + 1 ∧
    (worker_run (fun x => if x = 3 then Except.error "boom" else Except.ok ())
        [1, 2, 3, 4, 5, 6, 7, 8, 9, 10] ⟨0, 0⟩).processed =
      0 + ([1, 2, 3, 4, 5, 6, 7, 8, 9, 10].length - 1) :=
  ⟨by decide,
    (c6_worker_isolation
      (fun x => if x = 3 then Except.error "boom" else Except.ok ())
      [1, 2, 3, 4, 5, 6, 7, 8, 9, 10] ⟨0, 0⟩ (by decide)).1,
    (c6_worker_isolation
      (fun x => if x = 3 then Except.error "boom" else Except.ok ())
      [1, 2, 3, 4, 5, 6, 7, 8, 9, 10] ⟨0, 0⟩ (by decide)).2⟩

end AsyncBotWorker

namespace PerformanceOptimizer

/-- C9: whenever `_write_file_async` fails with an exception after any
number `k` of its filesystem operations, the `except` handler removes the
temporary sibling path before the call returns `false`: the result is
`false`, no temp file is left on disk, and the handler touches nothing but
the temp file (the target keeps exactly the content the failure point left
it with). -/
theorem c9_temp_cleanup (windows : Bool) (old : Option Nat) (newDoc : Nat)
    (k : Nat) :
    (write_file_failed windows old newDoc k).1 = false ∧
    (write_file_failed windows old newDoc k).2.temp = .absent ∧
    (write_file_failed windows old newDoc k).2.target =
      targetAfterCrash windows old newDoc k := by
  exact ⟨rfl, cleanupTemp_temp _, cleanupTemp_target _⟩

end PerformanceOptimizer

/-! ## `MemoryOptimizer` (performance_optimizer.py lines 215-265).

`__init__` fixes `memory_threshold = 0.8` and `gc_interval = 30` and
records `last_gc = time.time()`.  `optimize_memory(force)` reads the
clock and the memory percentage and runs garbage collection iff
`force or percent_used > memory_threshold * 100 or
current_time - last_gc > gc_interval`; a run updates `last_gc` to the
current time and returns `True`, otherwise it returns `False` and leaves
the state untouched.  Clock values and percentages are modelled as
rationals. -/

namespace MemOpt

/-- `self.memory_threshold`, set in `__init__` and never changed. -/
def memory_threshold : ℚ := 8 / 10

/-- `self.gc_interval` (seconds), set in `__init__` and never changed. -/
def gc_interval : ℚ := 30

/-- The mutable state of a `MemoryOptimizer`: the time of the last
garbage-collection run. -/
structure MemoryOptimizer where
  last_gc : ℚ
deriving DecidableEq, Repr

/-- `MemoryOptimizer.optimize_memory(force)`, given the current clock
reading `now` and the observed `percent_used`: returns whether
reclamation ran, together with the updated state. -/
def optimize_memory (st : MemoryOptimizer) (force : Bool) (now : ℚ)
    (percent_used : ℚ) : Bool × MemoryOptimizer :=
  if force || decide (percent_used > memory_threshold * 100)
      || decide (now - st.last_gc > gc_interval) then
    (true, { st with last_gc := now })
  else
    (false, st)

/-- C7: reclamation runs (and the call returns `true`) iff `force` is
set, or usage exceeds the 80% threshold, or more than 30 seconds have
elapsed since the last run; a run sets `last_gc` to the current time and
a non-run leaves the state unchanged. -/
theorem c7_reclaim_condition (st : MemoryOptimizer) (force : Bool)
    (now percent_used : ℚ) :
    ((optimize_memory st force now percent_used).1 = true ↔
      (force = true ∨ percent_used > 80 ∨ now - st.last_gc > 30)) ∧
    (optimize_memory st force now percent_used).2.last_gc =
      (if (optimize_memory st force now percent_used).1 = true then now
        else st.last_gc) := by
  have hth : memory_threshold * 100 = 80 := by norm_num [memory_threshold]
  unfold optimize_memory
  rw [hth]
  unfold gc_interval
  cases force <;>
    rcases lt_or_ge (80 : ℚ) percent_used with hp | hp <;>
    rcases lt_or_ge (30 : ℚ) (now - st.last_gc) with ht | ht <;>
    simp [hp, ht, not_lt_of_ge, le_refl]

/-- C7 witness: the theorem evaluated at a concrete forced call. -/
theorem c7_witness :
    ((optimize_memory ⟨0⟩ true 5 50).1 = true ↔
      (true = true ∨ (50 : ℚ) > 80 ∨ (5 : ℚ) - (MemoryOptimizer.mk 0).last_gc > 30)) ∧
    (optimize_memory ⟨0⟩ true 5 50).2.last_gc =
      (if (optimize_memory ⟨0⟩ true 5 50).1 = true then (5 : ℚ)
        else (MemoryOptimizer.mk 0).last_gc) :=
  c7_reclaim_condition ⟨0⟩ true 5 50

end MemOpt

/-! ## `AsyncDatabaseManager` (performance_optimizer.py lines 267-342).

`save_data(filename, data)` serializes `data`, and when the byte size
exceeds `file_handler.max_file_size` it calls
`_archive_large_data(filename, data)` — writing the *data it was given*
under `archives/{filename minus ".json"}_archive_{timestamp}.json` — and
returns `False` without touching the target file; otherwise it writes the
file and on success write-throughs the cache entry `load:{filename}` with
`data.copy()`.  `load_data(filename)` returns `cache[key].copy()` on a
cache hit, else reads the file (missing file ⇒ `{}`), caches a copy, and
returns it.

This pure model covers the fault-free executions (the crash/exception
behaviour of the underlying `_write_file_async` is modelled separately
above); the serialized byte size `len(json.dumps(data).encode("utf-8"))`
is an explicit `size` parameter. -/

namespace AsyncDB

/-- A JSON document: its top-level object, keys to opaque values. -/
abbrev Doc := List (String × Nat)

/-- `HighPerformanceFileHandler.max_file_size`: 50 MB. -/
def max_file_size : Nat := 50 * 1024 * 1024

/-- State of an `AsyncDatabaseManager`: the files of the data directory,
the TTL cache (`load:` entries, TTL/LRU-eviction not relevant to the
claims settled here), and the files of the `archives` subdirectory. -/
structure DBState where
  disk : String → Option Doc
  cache : String → Option Doc
  archives : List (String × Doc)

/-- The archive filename built by `_archive_large_data`:
`filename.replace(".json", "") + "_archive_" + timestamp + ".json"`. -/
def archiveName (filename timestamp : String) : String :=
  filename.replace ".json" "" ++ "_archive_" ++ timestamp ++ ".json"

/-- `AsyncDatabaseManager.save_data(filename, data)` in a fault-free run,
with `size` the serialized byte size and `ts` the current timestamp:
oversized data is archived (as given!) and the call fails; otherwise the
file is replaced and the cache entry for `load:{filename}` is set to a
copy of `data`. -/
def save_data (size : Doc → Nat) (st : DBState) (filename : String)
    (data : Doc) (ts : String) : Bool × DBState :=
  if size data > max_file_size then
    (false,
      { st with
          archives := st.archives ++ [(archiveName filename ts, data)] })
  else
    (true,
      { st with
          disk := fun n => if n = filename then some data else st.disk n,
          cache := fun n => if n = filename then some data else st.cache n })

/-- `AsyncDatabaseManager.load_data(filename)`: serve a copy from the
cache when present; otherwise read the file (missing ⇒ `{}`), cache a
copy, and return the document. -/
def load_data (st : DBState) (filename : String) : Doc × DBState :=
  match st.cache filename with
  | some d => (d, st)
  | none =>
    let d := (st.disk filename).getD []
    (d, { st with cache := fun n => if n = filename then some d else st.cache n })

end AsyncDB

namespace AsyncDB

/-- C4: the claim that an oversized `Save` archives the *previous* full
document is wrong on the code: `save_data` passes the *new* oversized
`data` to `_archive_large_data`, so the archive area receives the new
document, not the previous one, while the call does return failure and
leaves the target file (still holding the previous document) untouched.
Evaluated here at a concrete oversized save over a previous document
`[("a", 1)]`: the archive entry holds the new document `[("x", 0)]`. -/
theorem c4_oversized_archives_new_data :
    (save_data (fun d => 52428801 * d.length)
        { disk := fun n => if n = "users.json" then some [("a", 1)] else none,
          cache := fun _ => none, archives := [] }
        "users.json" [("x", 0)] "20240101_000000").1 = false ∧
    (save_data (fun d => 52428801 * d.length)
        { disk := fun n => if n = "users.json" then some [("a", 1)] else none,
          cache := fun _ => none, archives := [] }
        "users.json" [("x", 0)] "20240101_000000").2.archives =
      [(archiveName "users.json" "20240101_000000", [("x", 0)])] ∧
    ([("x", 0)] : Doc) ≠ [("a", 1)] ∧
    (save_data (fun d => 52428801 * d.length)
        { disk := fun n => if n = "users.json" then some [("a", 1)] else none,
          cache := fun _ => none, archives := [] }
        "users.json" [("x", 0)] "20240101_000000").2.disk "users.json" =
      some [("a", 1)] := by
  refine ⟨?_, ?_, by decide, ?_⟩ <;>
    simp [save_data, max_file_size, archiveName]

/-- C5: write-through correctness: after `Save(name, D1)` and then a
successful `Save(name, D2)` (its serialized size within the ceiling),
`Load(name)` returns `D2` and the in-memory cache entry for `name` holds
`D2`. -/
theorem c5_write_through (size : Doc → Nat) (st : DBState) (name : String)
    (d1 d2 : Doc) (ts1 ts2 : String)
    (h2 : size d2 ≤ max_file_size) :
    (save_data size (save_data size st name d1 ts1).2 name d2 ts2).1 = true ∧
    (load_data (save_data size (save_data size st name d1 ts1).2 name d2 ts2).2
        name).1 = d2 ∧
    (save_data size (save_data size st name d1 ts1).2 name d2 ts2).2.cache
        name = some d2 := by
  have hle : ¬ size d2 > max_file_size := by omega
  unfold save_data
  by_cases h1 : size d1 > max_file_size <;>
    simp [h1, hle, load_data]

/-- C5 witness: the theorem at a concrete store, name and documents. -/
theorem c5_witness :
    (fun (d : Doc) => d.length) [("2", 5)] ≤ max_file_size ∧
    ((save_data (fun d => d.length)
        (save_data (fun d => d.length)
          { disk := fun _ => none, cache := fun _ => none, archives := [] }
          "users.json" [("1", 4)] "t1").2
        "users.json" [("2", 5)] "t2").1 = true ∧
    (load_data (save_data (fun d => d.length)
        (save_data (fun d => d.length)
          { disk := fun _ => none, cache := fun _ => none, archives := [] }
          "users.json" [("1", 4)] "t1").2
        "users.json" [("2", 5)] "t2").2 "users.json").1 = [("2", 5)] ∧
    (save_data (fun d => d.length)
        (save_data (fun d => d.length)
          { disk := fun _ => none, cache := fun _ => none, archives := [] }
          "users.json" [("1", 4)] "t1").2
        "users.json" [("2", 5)] "t2").2.cache "users.json" =
      some [("2", 5)]) :=
  ⟨by decide,
    c5_write_through (fun d => d.length)
      { disk := fun _ => none, cache := fun _ => none, archives := [] }
      "users.json" [("1", 4)] [("2", 5)] "t1" "t2" (by decide)⟩

end AsyncDB

/-! ## Shallow-copy semantics of the cache (`load_data` / `save_data`).

`load_data` returns `self.cache[cache_key].copy()` on a hit (line 286)
and `save_data` stores `data.copy()` into the cache (line 319).  Python
dict aliasing is modelled with an explicit heap: addresses index dict
objects (top-level JSON maps); `dict.copy()` allocates a fresh address
holding the same top-level map; mutating a dict overwrites the map at its
address and nothing else. -/

namespace DictHeap

/-- The top-level map of one Python dict object. -/
abbrev TopMap := List (String × Nat)

/-- A heap of dict objects; an address is an index into `cells`. -/
structure Heap where
  cells : List TopMap

/-- Dereference an address. -/
def Heap.get (h : Heap) (a : Nat) : TopMap := h.cells.getD a []

/-- Allocate a fresh dict holding map `m`; returns its address. -/
def Heap.alloc (h : Heap) (m : TopMap) : Nat × Heap :=
  (h.cells.length, ⟨h.cells ++ [m]⟩)

/-- Mutate the dict at address `a` in place (add / remove / rebind
top-level keys: any in-place update is some new top-level map `m`). -/
def Heap.setCell (h : Heap) (a : Nat) (m : TopMap) : Heap :=
  ⟨h.cells.set a m⟩

/-- The cache-hit path of `load_data`: `return self.cache[cache_key]
.copy()` — allocate and return a fresh top-level copy of the cached
dict at `cacheAddr`. -/
def load_data_cached (h : Heap) (cacheAddr : Nat) : Nat × Heap :=
  h.alloc (h.get cacheAddr)

/-- The cache update of a successful `save_data`:
`self.cache[cache_key] = data.copy()` — the cache comes to hold a fresh
top-level copy of the document at `dataAddr`. -/
def save_data_cache_copy (h : Heap) (dataAddr : Nat) : Nat × Heap :=
  h.alloc (h.get dataAddr)

end DictHeap

namespace DictHeap

/-- C8: a `Load` served from the cache returns a fresh top-level copy of
the cached entry — the returned address differs from the cached one, and
overwriting the returned dict with any top-level mutation `m` leaves the
cached dict (hence what later `Load` calls copy out) unchanged; dually, a
successful `Save` caches a fresh top-level copy of the document it was
given, so mutating the caller's dict afterwards (`m2`) leaves the cached
copy holding the document as it was at save time. -/
theorem c8_cache_copies (h : Heap) (cacheAddr dataAddr : Nat)
    (m m2 : TopMap)
    (hca : cacheAddr < h.cells.length) (hda : dataAddr < h.cells.length) :
    (load_data_cached h cacheAddr).1 ≠ cacheAddr ∧
    (((load_data_cached h cacheAddr).2.setCell
        (load_data_cached h cacheAddr).1 m).get cacheAddr =
      h.get cacheAddr) ∧
    (save_data_cache_copy h dataAddr).1 ≠ dataAddr ∧
    (((save_data_cache_copy h dataAddr).2.setCell dataAddr m2).get
        (save_data_cache_copy h dataAddr).1 =
      h.get dataAddr) := by
  refine ⟨by show h.cells.length ≠ cacheAddr; omega, ?_,
    by show h.cells.length ≠ dataAddr; omega, ?_⟩
  · show ((h.cells ++ [h.get cacheAddr]).set h.cells.length m).getD
      cacheAddr [] = h.cells.getD cacheAddr []
    rw [List.getD_eq_getElem?_getD, List.getElem?_set_ne (by omega),
      List.getElem?_append_left hca, List.getD_eq_getElem?_getD]
  · show ((h.cells ++ [h.get dataAddr]).set dataAddr m2).getD
      h.cells.length [] = h.cells.getD dataAddr []
    rw [List.getD_eq_getElem?_getD, List.getElem?_set_ne (by omega)]
    have hcat : (h.cells ++ [h.get dataAddr])[h.cells.length]? =
        some (h.get dataAddr) := List.getElem?_concat_length _ _
    rw [hcat]
    rfl

/-- C8 witness: the theorem at a one-cell heap. -/
theorem c8_witness :
    0 < (Heap.mk [[("a", 1)]]).cells.length ∧
    ((load_data_cached ⟨[[("a", 1)]]⟩ 0).1 ≠ 0 ∧
    (((load_data_cached ⟨[[("a", 1)]]⟩ 0).2.setCell
        (load_data_cached ⟨[[("a", 1)]]⟩ 0).1 []).get 0 =
      Heap.get ⟨[[("a", 1)]]⟩ 0) ∧
    (save_data_cache_copy ⟨[[("a", 1)]]⟩ 0).1 ≠ 0 ∧
    (((save_data_cache_copy ⟨[[("a", 1)]]⟩ 0).2.setCell 0 [("b", 2)]).get
        (save_data_cache_copy ⟨[[("a", 1)]]⟩ 0).1 =
      Heap.get ⟨[[("a", 1)]]⟩ 0)) :=
  ⟨by decide,
    c8_cache_copies ⟨[[("a", 1)]]⟩ 0 0 [] [("b", 2)] (by decide) (by decide)⟩

end DictHeap

/-! ## `async_cached` memoization (performance_optimizer.py lines
387-404) as applied to `AsyncBotHandler._process_message_async`
(async_bot_handler.py line 173, `@async_cached(ttl=300)`).

The decorator keeps a `TTLCache(maxsize=100, ttl=ttl)` per function and
keys calls by `f"{func.__name__}:{hash(str(args) + str(sorted(kwargs
.items())))}"`: a deterministic function of the stringified arguments.
A lookup hits while `now < storedAt + ttl` (cachetools TTLCache
semantics); a hit returns the stored result without running the wrapped
body, and a miss runs the body and stores its result.  Clock readings
are rationals; `hash` is an arbitrary deterministic `String → Int`. -/

namespace AsyncCached

/-- One TTL cache entry: key, stored value, and the time it was stored. -/
structure TTLEntry where
  key : String
  value : Nat
  storedAt : ℚ
deriving DecidableEq, Repr

/-- A `cachetools.TTLCache` with per-entry expiry. -/
structure TTLState where
  entries : List TTLEntry
deriving DecidableEq, Repr

/-- Lookup at clock `now`: an entry answers only while
`now < storedAt + ttl`. -/
def ttlGet (ttl : ℚ) (now : ℚ) (st : TTLState) (k : String) : Option Nat :=
  (st.entries.find? (fun e => e.key == k)).bind
    (fun e => if now < e.storedAt + ttl then some e.value else none)

/-- Store `v` under `k` at clock `now`: replace any entry for `k`, and
evict oldest-first beyond `maxsize` entries. -/
def ttlSet (maxsize : Nat) (now : ℚ) (st : TTLState) (k : String)
    (v : Nat) : TTLState :=
  let l := st.entries.filter (fun e => !(e.key == k)) ++ [⟨k, v, now⟩]
  ⟨if l.length > maxsize then l.drop (l.length - maxsize) else l⟩

/-- The cache key of `async_cached`:
`f"{func.__name__}:{hash(str(args) + str(sorted(kwargs.items())))}"`. -/
def cacheKey (hash : String → Int) (funcName argsStr : String) : String :=
  funcName ++ ":" ++ toString (hash argsStr)

/-- One call through the `async_cached` wrapper at clock `now`, with
`argsStr` the stringified arguments and `f` the wrapped body (as a
function of the stringified arguments).  Returns the result, whether the
wrapped body actually executed, and the updated cache. -/
def cachedCall (hash : String → Int) (funcName : String) (f : String → Nat)
    (ttl : ℚ) (st : TTLState) (now : ℚ) (argsStr : String) :
    (Nat × Bool) × TTLState :=
  let k := cacheKey hash funcName argsStr
  match ttlGet ttl now st k with
  | some v => ((v, false), st)
  | none => ((f argsStr, true), ttlSet 100 now st k (f argsStr))

end AsyncCached

namespace AsyncCached

/-- C10: two calls to the memoized `_process_message_async` with equal
stringified arguments, the first at time `t1` on an empty cache and the
second at `t2` within the 300-second TTL window, run the handler body
only on the first call: the second call does not execute the body and
returns exactly the first call's cached result. -/
theorem c10_memoized_within_ttl (hash : String → Int) (funcName : String)
    (f : String → Nat) (t1 t2 : ℚ) (argsStr : String)
    (hwin : t2 < t1 + 300) :
    (cachedCall hash funcName f 300 ⟨[]⟩ t1 argsStr).1.2 = true ∧
    (cachedCall hash funcName f 300
        (cachedCall hash funcName f 300 ⟨[]⟩ t1 argsStr).2 t2 argsStr).1.2 =
      false ∧
    (cachedCall hash funcName f 300
        (cachedCall hash funcName f 300 ⟨[]⟩ t1 argsStr).2 t2 argsStr).1.1 =
      (cachedCall hash funcName f 300 ⟨[]⟩ t1 argsStr).1.1 := by
  have hfirst : cachedCall hash funcName f 300 ⟨[]⟩ t1 argsStr =
      ((f argsStr, true),
        ⟨[⟨cacheKey hash funcName argsStr, f argsStr, t1⟩]⟩) := by
    simp [cachedCall, ttlGet, ttlSet]
  rw [hfirst]
  refine ⟨rfl, ?_, ?_⟩ <;>
    simp [cachedCall, ttlGet, List.find?, hwin]

/-- C10 witness: the theorem at concrete times 0 and 100 within the
300-second window, with a concrete hash and handler body. -/
theorem c10_witness :
    ((100 : ℚ) < 0 + 300) ∧
    ((cachedCall (fun _ => 0) "_process_message_async" String.length 300
        ⟨[]⟩ 0 "msg").1.2 = true ∧
    (cachedCall (fun _ => 0) "_process_message_async" String.length 300
        (cachedCall (fun _ => 0) "_process_message_async" String.length 300
          ⟨[]⟩ 0 "msg").2 100 "msg").1.2 = false ∧
    (cachedCall (fun _ => 0) "_process_message_async" String.length 300
        (cachedCall (fun _ => 0) "_process_message_async" String.length 300
          ⟨[]⟩ 0 "msg").2 100 "msg").1.1 =
      (cachedCall (fun _ => 0) "_process_message_async" String.length 300
        ⟨[]⟩ 0 "msg").1.1) :=
  ⟨by norm_num,
    c10_memoized_within_ttl (fun _ => 0) "_process_message_async"
      String.length 0 100 "msg" (by norm_num)⟩

end AsyncCached

/-! ## `MultiCoreDataProcessor` (performance_optimizer.py lines 166-213).

`__init__` fixes `max_processes = min(8, cpu_count)` and `chunk_size =
max(1, 1000 // max_processes)`.  `process_data_parallel(data, fn)` slices
`data` into contiguous chunks of `chunk_size`, submits one future per
chunk applying `fn` elementwise (`_process_chunk`), then collects
`[future.result() for future in concurrent.futures.as_completed(futures)]`
— i.e. **in completion order**, which for more than one chunk is an
arbitrary permutation of the chunk indices — and concatenates.  Nothing
re-sorts by original index.  We pass the completion order explicitly as a
permutation `order` of the chunk indices; `fn` is a total Lean function,
so the per-chunk exception fallbacks are unreachable. -/

namespace MultiCore

/-- Structural-fuel slicing `[data[i:i+n] for i in range(0, len(data), n)]`
(each step consumes at least one element, so `data.length` fuel is
enough). -/
def chunksOfAux : Nat → Nat → List α → List (List α)
  | 0, _, _ => []
  | _ + 1, _, [] => []
  | fuel + 1, n, x :: xs =>
    (x :: xs).take (max 1 n) :: chunksOfAux fuel n ((x :: xs).drop (max 1 n))

/-- Slice a list into contiguous chunks of size `n` (at least 1). -/
def chunksOf (n : Nat) (l : List α) : List (List α) :=
  chunksOfAux l.length n l

/-- `self.chunk_size = max(1, 1000 // self.max_processes)`. -/
def chunk_size (max_processes : Nat) : Nat :=
  max 1 (1000 / max_processes)

/-- `MultiCoreDataProcessor.process_data_parallel(data, fn)` with pool
size `max_processes` and chunk-completion order `order` (the order in
which `as_completed` yields the chunk futures): apply `fn` to each chunk
elementwise and concatenate the chunk results in completion order. -/
def process_data_parallel (max_processes : Nat) (order : List Nat)
    (f : α → β) (data : List α) : List β :=
  if data.isEmpty then []
  else
    (order.map (fun i =>
      ((chunksOf (chunk_size max_processes) data).getD i []).map f)).flatten

lemma chunksOfAux_flatten (n : Nat) :
    ∀ (fuel : Nat) (l : List α), l.length ≤ fuel →
      (chunksOfAux fuel n l).flatten = l := by
  intro fuel
  induction fuel with
  | zero =>
    intro l hl
    have : l = [] := List.eq_nil_of_length_eq_zero (by omega)
    simp [this, chunksOfAux]
  | succ N ih =>
    intro l hl
    cases l with
    | nil => simp [chunksOfAux]
    | cons x xs =>
      rw [chunksOfAux, List.flatten_cons]
      rw [ih ((x :: xs).drop (max 1 n))
        (by
          simp only [List.length_drop, List.length_cons]
          have h1 : 1 ≤ max 1 n := Nat.le_max_left 1 n
          simp only [List.length_cons] at hl
          omega)]
      exact List.take_append_drop _ _

/-- Reassembling all chunks in index order gives back the data. -/
lemma chunksOf_flatten (n : Nat) (l : List α) :
    (chunksOf n l).flatten = l :=
  chunksOfAux_flatten n l.length l le_rfl

lemma map_getD_range (l : List α) (d : α) :
    (List.range l.length).map (fun i => l.getD i d) = l := by
  induction l with
  | nil => simp
  | cons x xs ih =>
    rw [List.length_cons, List.range_succ_eq_map, List.map_cons,
      List.map_map]
    congr 1

end MultiCore

namespace MultiCore

set_option maxRecDepth 10000 in
/-- C2 counterexample: with the largest reachable pool size (8), 126
items split into two chunks (sizes 125 and 1); when the second chunk's
future completes first (`as_completed` order `[1, 0]`) the concatenated
result starts with `fn(items[125])` — output order differs from input
order, refuting `result[i] = fn(items[i])`, even though `[1, 0]` is a
valid completion order of the two chunk futures. -/
theorem c2_counterexample :
    ([1, 0] : List Nat).Perm
      (List.range (chunksOf (chunk_size 8) (List.range 126)).length) ∧
    process_data_parallel 8 [1, 0] (fun x => x) (List.range 126) ≠
      (List.range 126).map (fun x => x) := by
  constructor
  · decide
  · decide

/-- C2 amended: over `N` items with any pool size and any completion
order of the chunk futures, the result has exactly length `N` and is a
permutation of `[fn(items[i])]` — the chunks are concatenated in
completion order, each chunk internally in input order — and the output
equals the input order exactly when the chunks complete in submission
order (in particular whenever there is at most one chunk, e.g. `N ≤
chunk_size`). -/
theorem c2_order_amended (max_processes : Nat) (order : List Nat)
    (f : α → β) (data : List α)
    (h : order.Perm
      (List.range (chunksOf (chunk_size max_processes) data).length)) :
    (process_data_parallel max_processes order f data).length =
      data.length ∧
    (process_data_parallel max_processes order f data).Perm (data.map f) ∧
    (order = List.range (chunksOf (chunk_size max_processes) data).length →
      process_data_parallel max_processes order f data = data.map f) := by
  by_cases hd : data.isEmpty
  · have hdata : data = [] := List.isEmpty_iff.mp hd
    subst hdata
    have hord : order = [] := by
      have : (chunksOf (chunk_size max_processes) ([] : List α)) = [] := rfl
      rw [this] at h
      simpa using h.eq_nil
    simp [hord, process_data_parallel]
  · have hchunksmap :
        (List.range (chunksOf (chunk_size max_processes) data).length).map
            (fun i =>
              ((chunksOf (chunk_size max_processes) data).getD i []).map f) =
          (chunksOf (chunk_size max_processes) data).map (List.map f) := by
      have h3 := map_getD_range (chunksOf (chunk_size max_processes) data) []
      calc
        (List.range (chunksOf (chunk_size max_processes) data).length).map
            (fun i =>
              ((chunksOf (chunk_size max_processes) data).getD i []).map f)
          = ((List.range
                (chunksOf (chunk_size max_processes) data).length).map
              (fun i =>
                (chunksOf (chunk_size max_processes) data).getD i [])).map
              (List.map f) := by
            rw [List.map_map]; rfl
        _ = (chunksOf (chunk_size max_processes) data).map (List.map f) := by
            rw [h3]
    have hflat :
        ((chunksOf (chunk_size max_processes) data).map (List.map f)).flatten
          = data.map f := by
      rw [← List.map_flatten, chunksOf_flatten]
    have hres : process_data_parallel max_processes order f data =
        (order.map (fun i =>
          ((chunksOf (chunk_size max_processes) data).getD i []).map f)).flatten := by
      simp [process_data_parallel, hd]
    have hperm :
        (process_data_parallel max_processes order f data).Perm
          (data.map f) := by
      rw [hres, ← hflat]
      exact (h.map _ |>.trans (by rw [hchunksmap])).flatten
    refine ⟨?_, hperm, ?_⟩
    · rw [hperm.length_eq, List.length_map]
    · intro heq
      rw [hres, heq, hchunksmap, hflat]

/-- C2 witness: the amended theorem at pool size 8 with two items (a
single chunk, completion order `[0]`). -/
theorem c2_witness :
    ([0] : List Nat).Perm
      (List.range (chunksOf (chunk_size 8) [5, 7]).length) ∧
    ((process_data_parallel 8 [0] (fun x => x + 1) [5, 7]).length =
      ([5, 7] : List Nat).length ∧
    (process_data_parallel 8 [0] (fun x => x + 1) [5, 7]).Perm
      ([5, 7].map (fun x => x + 1)) ∧
    (([0] : List Nat) =
        List.range (chunksOf (chunk_size 8) [5, 7]).length →
      process_data_parallel 8 [0] (fun x => x + 1) [5, 7] =
        [5, 7].map (fun x => x + 1))) :=
  ⟨by decide, c2_order_amended 8 [0] (fun x => x + 1) [5, 7] (by decide)⟩

end MultiCore
